import Mathlib

/-!
Shallow embedding of the DiceCloud character stat computation engine
(src/app/imports/api/properties/ClassLevels.js) and proofs about it.

JavaScript numbers are modelled as `JsNum` (NaN, the two infinities, or an
exact rational); runtime values that can be numbers or strings are `JsVal`.
Strings are modelled as `List Char`.  The recursive stat computation is
modelled with an explicit fuel parameter: `Res.out` marks fuel exhaustion,
`Res.err` a thrown JavaScript exception, `Res.ok` normal return.
The source file is an ES module, but its `for (i in ...)` loop heads write
undeclared identifiers, which only works under non-strict (historical)
semantics; loops are therefore modelled as ordinary iteration, while reads
of identifiers that are undeclared in every mode (`effect` in the
proficiency attachment, properties of `undefined`) are modelled as thrown
errors.
-/

namespace DiceCloud

/-- A JavaScript number: NaN, +Infinity, -Infinity, or a finite value
(modelled exactly as a rational; the computations the engine performs on
realistic inputs stay inside dyadic rationals, where IEEE doubles are
exact). -/
inductive JsNum where
  | nan
  | inf
  | ninf
  | num (q : ℚ)
deriving DecidableEq, Repr

namespace JsNum

/-- JavaScript addition. -/
def add : JsNum → JsNum → JsNum
  | nan, _ => nan
  | _, nan => nan
  | inf, ninf => nan
  | ninf, inf => nan
  | inf, _ => inf
  | _, inf => inf
  | ninf, _ => ninf
  | _, ninf => ninf
  | num a, num b => num (a + b)

/-- JavaScript negation. -/
def neg : JsNum → JsNum
  | nan => nan
  | inf => ninf
  | ninf => inf
  | num a => num (-a)

/-- JavaScript subtraction. -/
def sub (a b : JsNum) : JsNum := a.add b.neg

/-- JavaScript multiplication. -/
def mul : JsNum → JsNum → JsNum
  | nan, _ => nan
  | _, nan => nan
  | inf, inf => inf
  | inf, ninf => ninf
  | ninf, inf => ninf
  | ninf, ninf => inf
  | inf, num b => if 0 < b then inf else if b < 0 then ninf else nan
  | num a, inf => if 0 < a then inf else if a < 0 then ninf else nan
  | ninf, num b => if 0 < b then ninf else if b < 0 then inf else nan
  | num a, ninf => if 0 < a then ninf else if a < 0 then inf else nan
  | num a, num b => num (a * b)

/-- JavaScript division (ignoring signed zero). -/
def div : JsNum → JsNum → JsNum
  | nan, _ => nan
  | _, nan => nan
  | inf, inf => nan
  | inf, ninf => nan
  | ninf, inf => nan
  | ninf, ninf => nan
  | inf, num b => if 0 ≤ b then inf else ninf
  | ninf, num b => if 0 ≤ b then ninf else inf
  | num _, inf => num 0
  | num _, ninf => num 0
  | num a, num b =>
    if b = 0 then (if a = 0 then nan else if 0 < a then inf else ninf)
    else num (a / b)

/-- The JavaScript `<` comparison on numbers (false whenever NaN is involved). -/
def lt : JsNum → JsNum → Bool
  | nan, _ => false
  | _, nan => false
  | inf, _ => false
  | _, inf => true
  | ninf, ninf => false
  | ninf, num _ => true
  | num _, ninf => false
  | num a, num b => decide (a < b)

/-- `Math.floor`. -/
def floor : JsNum → JsNum
  | nan => nan
  | inf => inf
  | ninf => ninf
  | num q => num (⌊q⌋ : ℤ)

/-- JavaScript truthiness of a number: `0` and `NaN` are falsy. -/
def truthy : JsNum → Bool
  | nan => false
  | inf => true
  | ninf => true
  | num q => decide (q ≠ 0)

/-- Underscore's `_.isFinite` on a number. -/
def isFinite : JsNum → Bool
  | num _ => true
  | _ => false

end JsNum

/-- Decimal digits of a natural number, most significant first. -/
def natToChars (n : Nat) : List Char := (Nat.repr n).data

/-- Decimal digits of an integer. -/
def intToChars (i : ℤ) : List Char :=
  if i < 0 then '-' :: natToChars (-i).toNat else natToChars i.toNat

/-- Digits after the decimal point of a nonnegative rational, up to `fuel`
digits (enough for every value the engine actually prints). -/
def fracDigits : Nat → ℚ → List Char
  | 0, _ => []
  | fuel + 1, q =>
    if q = 0 then []
    else
      let q10 := q * 10
      let d := ⌊q10⌋
      (Char.ofNat ('0'.toNat + d.toNat)) :: fracDigits fuel (q10 - d)

/-- Render a nonnegative rational in decimal. -/
def nonnegRatToChars (q : ℚ) : List Char :=
  let ip := ⌊q⌋
  let fp := q - ip
  if fp = 0 then intToChars ip
  else intToChars ip ++ '.' :: fracDigits 20 fp

/-- Render a rational the way JavaScript prints the corresponding double
(for the terminating decimals that actually occur). -/
def ratToChars (q : ℚ) : List Char :=
  if q < 0 then '-' :: nonnegRatToChars (-q) else nonnegRatToChars q

/-- String conversion of a JavaScript number. -/
def jsNumToChars : JsNum → List Char
  | .nan => "NaN".data
  | .inf => "Infinity".data
  | .ninf => "-Infinity".data
  | .num q => ratToChars q

/-- A JavaScript runtime value as used by the engine: a number, a string,
or `undefined`. -/
inductive JsVal where
  | num (n : JsNum)
  | str (s : List Char)
  | undefined
deriving DecidableEq, Repr

/-- Is this character an ASCII decimal digit? -/
def isDigitChar (c : Char) : Bool := '0' ≤ c && c ≤ '9'

/-- Parse an unsigned decimal literal (digits, optional point, digits). -/
def parseDecimal (s : List Char) : Option ℚ :=
  let int := s.takeWhile isDigitChar
  let rest := s.dropWhile isDigitChar
  if int = [] then none
  else
    let iv : ℚ := int.foldl (fun a c => a * 10 + (c.toNat - '0'.toNat)) 0
    match rest with
    | [] => some iv
    | '.' :: fr =>
      if fr.all isDigitChar ∧ fr ≠ [] then
        let fv : ℚ := fr.foldl (fun a c => a * 10 + (c.toNat - '0'.toNat)) 0
        some (iv + fv / (10 ^ fr.length))
      else none
    | _ => none

/-- JavaScript `Number(string)` coercion (for the subset of strings the
engine can produce). -/
def charsToNum (s : List Char) : JsNum :=
  let t := s.dropWhile (· = ' ')
  let t := (t.reverse.dropWhile (· = ' ')).reverse
  if t = [] then .num 0
  else if t = "Infinity".data then .inf
  else if t = "-Infinity".data then .ninf
  else
    match t with
    | '-' :: u => match parseDecimal u with
      | some q => .num (-q)
      | none => .nan
    | u => match parseDecimal u with
      | some q => .num q
      | none => .nan

namespace JsVal

/-- JavaScript `Number(v)` coercion. -/
def toNumber : JsVal → JsNum
  | num n => n
  | str s => charsToNum s
  | undefined => .nan

/-- JavaScript string coercion. -/
def toChars : JsVal → List Char
  | num n => jsNumToChars n
  | str s => s
  | undefined => "undefined".data

/-- JavaScript truthiness. -/
def truthy : JsVal → Bool
  | num n => n.truthy
  | str s => decide (s ≠ [])
  | undefined => false

end JsVal

/-- Lexicographic `<` on strings, as JavaScript compares two strings. -/
def charsLt : List Char → List Char → Bool
  | [], [] => false
  | [], _ :: _ => true
  | _ :: _, [] => false
  | a :: as, b :: bs => if a = b then charsLt as bs else decide (a < b)

/-- The JavaScript `+` operator: string concatenation when either operand
is a string, numeric addition otherwise. -/
def jsAdd (a b : JsVal) : JsVal :=
  match a, b with
  | .str _, _ => .str (a.toChars ++ b.toChars)
  | _, .str _ => .str (a.toChars ++ b.toChars)
  | _, _ => .num (a.toNumber.add b.toNumber)

/-- The JavaScript `*` operator. -/
def jsMul (a b : JsVal) : JsVal := .num (a.toNumber.mul b.toNumber)

/-- The JavaScript `<` operator (string comparison when both operands are
strings, numeric comparison otherwise). -/
def jsLtB (a b : JsVal) : Bool :=
  match a, b with
  | .str x, .str y => charsLt x y
  | _, _ => a.toNumber.lt b.toNumber

/-- The JavaScript `>` operator. -/
def jsGtB (a b : JsVal) : Bool := jsLtB b a

/-- The JavaScript `++` operator's effect on a value. -/
def jsIncr (v : JsVal) : JsVal := .num (v.toNumber.add (.num 1))

/-- `x || NaN` as used for `stat.mod || NaN`. -/
def jsOrNaN (v : JsVal) : JsVal := if v.truthy then v else .num .nan

/-- A stored effect as built by buildCharacter. -/
structure EffectRec where
  computed : Bool
  result : JsVal
  operation : List Char
  value : Option JsNum
  calculation : Option (List Char)
deriving DecidableEq, Repr

/-- An entry of a skill's `proficiencies` array; combineSkill reads its
`value` field. -/
structure ProfRec where
  value : JsVal
deriving DecidableEq, Repr

/-- An attribute node of the in-memory character, with exactly the fields
buildCharacter creates (the underscore `_.has` dispatch in applyEffect
depends on which fields exist). -/
structure AttRec where
  computed : Bool
  busyComputing : Bool
  attributeType : Option (List Char)
  base : JsVal
  decimal : Bool
  result : JsVal
  mod : JsVal
  add : JsVal
  mul : JsVal
  min : JsVal
  max : JsVal
  effects : List EffectRec
deriving DecidableEq, Repr

/-- A skill node of the in-memory character (no `base` field). -/
structure SkillRec where
  computed : Bool
  busyComputing : Bool
  ability : Option (List Char)
  result : JsVal
  proficiency : JsVal
  add : JsVal
  mul : JsVal
  min : JsVal
  max : JsVal
  advantage : JsVal
  disadvantage : JsVal
  passiveAdd : JsVal
  fail : JsVal
  conditional : JsVal
  effects : List EffectRec
  proficiencies : List ProfRec
deriving DecidableEq, Repr

/-- A damage multiplier node (none of the accumulator fields applyEffect
checks for, only the three counters). -/
structure DmRec where
  computed : Bool
  busyComputing : Bool
  result : JsVal
  immunityCount : Nat
  ressistanceCount : Nat
  vulnerabilityCount : Nat
  effects : List EffectRec
deriving DecidableEq, Repr

/-- The three stat kinds. -/
inductive StatK where
  | att
  | skill
  | dm
deriving DecidableEq, Repr

/-- A stat node of any kind. -/
inductive Stat where
  | att (a : AttRec)
  | skill (s : SkillRec)
  | dm (d : DmRec)
deriving DecidableEq, Repr

/-- The in-memory character built by buildCharacter.  The association
lists preserve insertion order, which is the `for ... in` enumeration
order of the corresponding JavaScript objects. -/
structure CharState where
  atts : List (List Char × AttRec)
  skills : List (List Char × SkillRec)
  dms : List (List Char × DmRec)
  classes : List (List Char × JsNum)
  level : JsNum
deriving DecidableEq, Repr

/-- Ordered association list lookup. -/
def alookup {α : Type} : List (List Char × α) → List Char → Option α
  | [], _ => none
  | (k2, v) :: rest, k => if k2 = k then some v else alookup rest k

/-- Ordered association list update (no-op if the key is absent). -/
def aset {α : Type} : List (List Char × α) → List Char → α → List (List Char × α)
  | [], _, _ => []
  | (k2, v2) :: rest, k, v =>
    if k2 = k then (k2, v) :: rest else (k2, v2) :: aset rest k v

/-- A reference to a stat node: its kind and variable name. -/
abbrev StatRef := StatK × List Char

/-- Dereference a stat. -/
def getStat (c : CharState) : StatRef → Option Stat
  | (.att, n) => (alookup c.atts n).map .att
  | (.skill, n) => (alookup c.skills n).map .skill
  | (.dm, n) => (alookup c.dms n).map .dm

/-- Write a stat back (mutation of the shared node object). -/
def setStat (c : CharState) : StatRef → Stat → CharState
  | (.att, n), .att a => { c with atts := aset c.atts n a }
  | (.skill, n), .skill s => { c with skills := aset c.skills n s }
  | (.dm, n), .dm d => { c with dms := aset c.dms n d }
  | _, _ => c

namespace Stat

/-- The `computed` flag of any stat node. -/
def computed : Stat → Bool
  | .att a => a.computed
  | .skill s => s.computed
  | .dm d => d.computed

/-- The `busyComputing` flag of any stat node. -/
def busyComputing : Stat → Bool
  | .att a => a.busyComputing
  | .skill s => s.busyComputing
  | .dm d => d.busyComputing

/-- The `effects` array of any stat node. -/
def effects : Stat → List EffectRec
  | .att a => a.effects
  | .skill s => s.effects
  | .dm d => d.effects

/-- The dependency-loop branch of computeStat: computed, result NaN,
busy flag cleared. -/
def markCycle : Stat → Stat
  | .att a => .att { a with computed := true, result := .num .nan, busyComputing := false }
  | .skill s => .skill { s with computed := true, result := .num .nan, busyComputing := false }
  | .dm d => .dm { d with computed := true, result := .num .nan, busyComputing := false }

/-- The end of computeStat: computed, busy flag cleared. -/
def markComputed : Stat → Stat
  | .att a => .att { a with computed := true, busyComputing := false }
  | .skill s => .skill { s with computed := true, busyComputing := false }
  | .dm d => .dm { d with computed := true, busyComputing := false }

/-- Overwrite effect number `i` of the stat. -/
def setEffectAt : Stat → Nat → EffectRec → Stat
  | .att a, i, e => .att { a with effects := a.effects.set i e }
  | .skill s, i, e => .skill { s with effects := s.effects.set i e }
  | .dm d, i, e => .dm { d with effects := d.effects.set i e }

end Stat

/-- Overwrite effect number `i` of the referenced stat in the character. -/
def setEffectIn (c : CharState) (ref : StatRef) (i : Nat) (e : EffectRec) : CharState :=
  match getStat c ref with
  | none => c
  | some st => setStat c ref (st.setEffectAt i e)

/-- applyEffect from the source.  Each operation only applies to stats
owning the matching accumulator field (the `_.has` checks); in particular
a `mul` effect on a damage multiplier returns before reaching the
count-increment branch, because damage multiplier nodes have no `mul`
field — that branch of the source is unreachable. -/
def applyEffect (e : EffectRec) (st : Stat) : Stat :=
  if e.operation = "base".data then
    match st with
    | .att a => .att { a with base := if jsGtB e.result a.base then e.result else a.base }
    | _ => st
  else if e.operation = "add".data then
    match st with
    | .att a => .att { a with add := jsAdd a.add e.result }
    | .skill s => .skill { s with add := jsAdd s.add e.result }
    | _ => st
  else if e.operation = "mul".data then
    match st with
    | .att a => .att { a with mul := jsMul a.mul e.result }
    | .skill s => .skill { s with mul := jsMul s.mul e.result }
    | .dm _ => st
  else if e.operation = "min".data then
    match st with
    | .att a => .att { a with min := if jsGtB e.result a.min then e.result else a.min }
    | .skill s => .skill { s with min := if jsGtB e.result s.min then e.result else s.min }
    | _ => st
  else if e.operation = "max".data then
    match st with
    | .att a => .att { a with max := if jsLtB e.result a.max then e.result else a.max }
    | .skill s => .skill { s with max := if jsLtB e.result s.max then e.result else s.max }
    | _ => st
  else if e.operation = "advantage".data then
    match st with
    | .skill s => .skill { s with advantage := jsIncr s.advantage }
    | _ => st
  else if e.operation = "disadvantage".data then
    match st with
    | .skill s => .skill { s with disadvantage := jsIncr s.disadvantage }
    | _ => st
  else if e.operation = "passiveAdd".data then
    match st with
    | .skill s => .skill { s with passiveAdd := jsAdd s.passiveAdd e.result }
    | _ => st
  else if e.operation = "fail".data then
    match st with
    | .skill s => .skill { s with fail := jsIncr s.fail }
    | _ => st
  else if e.operation = "conditional".data then
    match st with
    | .skill s => .skill { s with conditional := jsIncr s.conditional }
    | _ => st
  else st

/-- combineAttribute from the source. -/
def combineAttribute (a : AttRec) : AttRec :=
  let r0 := jsMul (jsAdd a.base a.add) a.mul
  let r1 := if jsLtB r0 a.min then a.min else r0
  let r2 := if jsGtB r1 a.max then a.max else r1
  let r3 := if a.decimal then r2 else JsVal.num r2.toNumber.floor
  let m := if a.attributeType = some ("ability".data)
    then JsVal.num ((r3.toNumber.sub (.num 10)).div (.num 2)).floor
    else a.mod
  { a with result := r3, mod := m }

/-- combineDamageMultiplier from the source.  When `immunityCount` is
nonzero the source executes `return 0`, which discards the value and
leaves `stat.result` untouched, so the node keeps its current result. -/
def combineDamageMultiplier (d : DmRec) : DmRec :=
  if d.immunityCount ≠ 0 then d
  else if d.ressistanceCount ≠ 0 ∧ d.vulnerabilityCount = 0 then
    { d with result := .num (.num (1 / 2)) }
  else if d.ressistanceCount = 0 ∧ d.vulnerabilityCount ≠ 0 then
    { d with result := .num (.num 2) }
  else { d with result := .num (.num 1) }

/-- JavaScript regular expression `\w`: ASCII letters, digits, underscore
(stated on code points to keep the proofs arithmetic). -/
def isWordChar (c : Char) : Bool :=
  (97 ≤ c.toNat && c.toNat ≤ 122) || (65 ≤ c.toNat && c.toNat ≤ 90) ||
    (48 ≤ c.toNat && c.toNat ≤ 57) || c.toNat = 95

/-- The character class `[a-z,1-9]` with the `i` flag: letters of either
case, the comma, and the digits one to nine (zero excluded). -/
def inTokenClass (c : Char) : Bool :=
  (97 ≤ c.toNat && c.toNat ≤ 122) || (65 ≤ c.toNat && c.toNat ≤ 90) ||
    c.toNat = 44 || (49 ≤ c.toNat && c.toNat ≤ 57)

/-- The image of the token class under lower-casing: lower-case letters,
the comma, and the digits one to nine.  Neither `0` (code 48) nor any
upper-case letter (codes 65 to 90) belongs to it. -/
def inLowerTokenClass (c : Char) : Bool :=
  (97 ≤ c.toNat && c.toNat ≤ 122) || c.toNat = 44 || (49 ≤ c.toNat && c.toNat ≤ 57)

/-- Word-ness of an optional character (`\b` against the string edge). -/
def isWordOpt : Option Char → Bool
  | none => false
  | some c => isWordChar c

/-- ASCII lower-casing, as `toLowerCase` acts on the identifiers involved. -/
def asciiLower (c : Char) : Char :=
  if 65 ≤ c.toNat && c.toNat ≤ 90 then Char.ofNat (c.toNat + 32) else c

/-- Lower-case a string. -/
def lowerChars (s : List Char) : List Char := s.map asciiLower

/-- A piece of the formula as split by the global regex replace: either an
unmatched literal character or a matched token. -/
inductive Seg where
  | lit (c : Char)
  | tok (t : List Char)
deriving DecidableEq, Repr

/-- Backtracking for the trailing `\b`: the first argument is the reversed
greedy match, the second the input after it; drop trailing characters
until the boundary holds.  Returns the match and the rest of the input. -/
def shrinkMatch : List Char → List Char → Option (List Char × List Char)
  | [], _ => none
  | p :: ps, rest =>
    if isWordChar p != isWordOpt rest.head? then some ((p :: ps).reverse, rest)
    else shrinkMatch ps (p :: rest)

/-- The scanner behind `string.replace(/\b[a-z,1-9]+\b/gi, ...)`: find the
leftmost matches (greedy, then backtracking for the trailing boundary;
on failure the scan advances one character), splitting the string into
literal characters and matched tokens.  `prev` is the character before
the current position. -/
def tokenizeAux : Nat → Option Char → List Char → List Seg
  | 0, _, s => s.map .lit
  | _ + 1, _, [] => []
  | fuel + 1, prev, c :: rest =>
    if inTokenClass c && (isWordOpt prev != isWordChar c) then
      let run := c :: rest.takeWhile inTokenClass
      let after := rest.dropWhile inTokenClass
      match shrinkMatch run.reverse after with
      | some (m, rest2) => .tok m :: tokenizeAux fuel (some (m.getLastD c)) rest2
      | none => .lit c :: tokenizeAux fuel (some c) rest
    else .lit c :: tokenizeAux fuel (some c) rest

/-- Split a formula into literal characters and tokens. -/
def tokenize (s : List Char) : List Seg := tokenizeAux (s.length + 1) none s

/-- Does the lower-cased token match `/^\w+mod$/`? -/
def modPattern (s : List Char) : Bool :=
  s.all isWordChar && decide (4 ≤ s.length) && decide (s.drop (s.length - 3) = "mod".data)

/-- Strip the trailing `mod`. -/
def stripMod (s : List Char) : List Char := s.take (s.length - 3)

/-- Does the lower-cased token match `/^\w+levels?$/`? -/
def levelPattern (s : List Char) : Bool :=
  s.all isWordChar &&
    ((decide (7 ≤ s.length) && decide (s.drop (s.length - 6) = "levels".data)) ||
     (decide (6 ≤ s.length) && decide (s.drop (s.length - 5) = "level".data)))

/-- `sub.replace(/levels?$/, "")`. -/
def stripLevel (s : List Char) : List Char :=
  if s.drop (s.length - 6) = "levels".data then s.take (s.length - 6)
  else s.take (s.length - 5)

/-- Tokens of the arithmetic expression grammar accepted by the modelled
`math.eval`. -/
inductive MTok where
  | lp
  | rp
  | plus
  | minus
  | star
  | slash
  | lit (n : JsNum)
deriving DecidableEq, Repr

/-- ASCII letter test. -/
def isAlphaChar (c : Char) : Bool := ('a' ≤ c && c ≤ 'z') || ('A' ≤ c && c ≤ 'Z')

/-- Lexer of the arithmetic evaluator: numbers, the identifiers NaN and
Infinity, operators and parentheses; anything else is a lex error. -/
def mlex : Nat → List Char → Option (List MTok)
  | 0, _ => none
  | _ + 1, [] => some []
  | fuel + 1, c :: rest =>
    if c = ' ' then mlex fuel rest
    else if c = '(' then (mlex fuel rest).map (.lp :: ·)
    else if c = ')' then (mlex fuel rest).map (.rp :: ·)
    else if c = '+' then (mlex fuel rest).map (.plus :: ·)
    else if c = '-' then (mlex fuel rest).map (.minus :: ·)
    else if c = '*' then (mlex fuel rest).map (.star :: ·)
    else if c = '/' then (mlex fuel rest).map (.slash :: ·)
    else if isDigitChar c then
      let ds := c :: rest.takeWhile isDigitChar
      let r1 := rest.dropWhile isDigitChar
      match r1 with
      | '.' :: r2 =>
        let fs := r2.takeWhile isDigitChar
        if fs = [] then none
        else
          match parseDecimal (ds ++ '.' :: fs) with
          | some q => (mlex fuel (r2.dropWhile isDigitChar)).map (.lit (.num q) :: ·)
          | none => none
      | _ =>
        match parseDecimal ds with
        | some q => (mlex fuel r1).map (.lit (.num q) :: ·)
        | none => none
    else if isAlphaChar c then
      let w := c :: rest.takeWhile isAlphaChar
      let r1 := rest.dropWhile isAlphaChar
      if w = "NaN".data then (mlex fuel r1).map (.lit .nan :: ·)
      else if w = "Infinity".data then (mlex fuel r1).map (.lit .inf :: ·)
      else none
    else none

mutual

/-- Sums and differences. -/
def parseExpr : Nat → List MTok → Option (JsNum × List MTok)
  | 0, _ => none
  | fuel + 1, ts =>
    match parseTerm fuel ts with
    | some (v, rest) => parseExprLoop fuel v rest
    | none => none

/-- Left-associated chain of `+` and `-`. -/
def parseExprLoop : Nat → JsNum → List MTok → Option (JsNum × List MTok)
  | 0, _, _ => none
  | fuel + 1, acc, .plus :: ts =>
    match parseTerm fuel ts with
    | some (v, rest) => parseExprLoop fuel (acc.add v) rest
    | none => none
  | fuel + 1, acc, .minus :: ts =>
    match parseTerm fuel ts with
    | some (v, rest) => parseExprLoop fuel (acc.sub v) rest
    | none => none
  | _ + 1, acc, ts => some (acc, ts)

/-- Products and quotients. -/
def parseTerm : Nat → List MTok → Option (JsNum × List MTok)
  | 0, _ => none
  | fuel + 1, ts =>
    match parseFactor fuel ts with
    | some (v, rest) => parseTermLoop fuel v rest
    | none => none

/-- Left-associated chain of `*` and `/`. -/
def parseTermLoop : Nat → JsNum → List MTok → Option (JsNum × List MTok)
  | 0, _, _ => none
  | fuel + 1, acc, .star :: ts =>
    match parseFactor fuel ts with
    | some (v, rest) => parseTermLoop fuel (acc.mul v) rest
    | none => none
  | fuel + 1, acc, .slash :: ts =>
    match parseFactor fuel ts with
    | some (v, rest) => parseTermLoop fuel (acc.div v) rest
    | none => none
  | _ + 1, acc, ts => some (acc, ts)

/-- Unary signs, literals, parenthesised expressions. -/
def parseFactor : Nat → List MTok → Option (JsNum × List MTok)
  | 0, _ => none
  | fuel + 1, .minus :: ts => (parseFactor fuel ts).map (fun vr => (vr.1.neg, vr.2))
  | fuel + 1, .plus :: ts => parseFactor fuel ts
  | _ + 1, .lit n :: ts => some (n, ts)
  | fuel + 1, .lp :: ts =>
    match parseExpr fuel ts with
    | some (v, .rp :: rest) => some (v, rest)
    | _ => none
  | _ + 1, _ => none

end

/-- The model of `math.eval`: evaluate the substituted string as an
arithmetic expression, or fail (as the library throws on syntax errors
and unknown symbols). -/
def mathEval (s : List Char) : Option JsNum :=
  match mlex (s.length + 1) s with
  | none => none
  | some ts =>
    match parseExpr (4 * ts.length + 4) ts with
    | some (v, []) => some v
    | _ => none

/-- Thrown JavaScript exceptions the engine can actually produce. -/
inductive JsErr where
  | typeError
  | referenceError
deriving DecidableEq, Repr

/-- Outcome of a fuel-bounded computation: `out` marks fuel exhaustion
(used to witness divergence), `err` a thrown exception, `ok` a normal
return. -/
inductive Res (α : Type) where
  | out
  | err (e : JsErr)
  | ok (a : α)
deriving DecidableEq, Repr

/-- Sequencing that propagates exhaustion and exceptions. -/
def Res.bind {α β : Type} : Res α → (α → Res β) → Res β
  | .out, _ => .out
  | .err e, _ => .err e
  | .ok a, f => f a

/-- `_.isFinite(effect.value)`. -/
def effValueFinite (e : EffectRec) : Bool :=
  match e.value with
  | some v => v.isFinite
  | none => false

/-- `effect.value` as a number (only used when it is finite). -/
def effValue (e : EffectRec) : JsNum := e.value.getD .nan

/-- `effect.result = effect.calculation` for the conditional branch. -/
def calcResult (e : EffectRec) : JsVal :=
  match e.calculation with
  | some s => .str s
  | none => .undefined

/-- `_.contains(["advantage", "disadvantage", "fail"], effect.operation)`. -/
def isAdvLike (op : List Char) : Bool :=
  op = "advantage".data || op = "disadvantage".data || op = "fail".data

mutual

/-- computeStat from the source: skip if computed; the busy branch forces
NaN (but `busyComputing` is never set anywhere in the source, faithfully
kept here, so this branch is dead); otherwise compute and apply each
effect, combine, and mark computed. -/
def computeStat : Nat → StatRef → CharState → Res CharState
  | 0, _, _ => .out
  | fuel + 1, ref, char =>
    match getStat char ref with
    | none => .err .typeError
    | some st =>
      if st.computed then .ok char
      else if st.busyComputing then .ok (setStat char ref st.markCycle)
      else
        Res.bind (computeEffectsLoop fuel ref 0 char) (fun char2 =>
          Res.bind (combineStat fuel ref char2) (fun char3 =>
            match getStat char3 ref with
            | none => .err .typeError
            | some st3 => .ok (setStat char3 ref st3.markComputed)))

/-- The `for (i in stat.effects)` loop of computeStat: compute effect `i`,
apply it to the (current) stat, continue with the next index. -/
def computeEffectsLoop : Nat → StatRef → Nat → CharState → Res CharState
  | 0, _, _, _ => .out
  | fuel + 1, ref, i, char =>
    match getStat char ref with
    | none => .err .typeError
    | some st =>
      if i < st.effects.length then
        Res.bind (computeEffect fuel ref i char) (fun char2 =>
          match getStat char2 ref with
          | none => .err .typeError
          | some st2 =>
            match st2.effects.get? i with
            | none => .err .typeError
            | some e =>
              computeEffectsLoop fuel ref (i + 1) (setStat char2 ref (applyEffect e st2)))
      else .ok char

/-- computeEffect from the source: memoized; a finite literal value wins,
then the conditional branch, then the advantage/disadvantage/fail
constants, then a string calculation is evaluated. -/
def computeEffect : Nat → StatRef → Nat → CharState → Res CharState
  | 0, _, _, _ => .out
  | fuel + 1, ref, i, char =>
    match getStat char ref with
    | none => .err .typeError
    | some st =>
      match st.effects.get? i with
      | none => .err .typeError
      | some e =>
        if e.computed then .ok char
        else if effValueFinite e then
          .ok (setEffectIn char ref i
            { e with result := .num (effValue e), computed := true })
        else if e.operation = "conditional".data then
          .ok (setEffectIn char ref i { e with result := calcResult e, computed := true })
        else if isAdvLike e.operation then
          .ok (setEffectIn char ref i { e with result := .num (.num 1), computed := true })
        else
          match e.calculation with
          | some s =>
            Res.bind (evaluateCalculation fuel s char) (fun vc =>
              match getStat vc.2 ref with
              | none => .err .typeError
              | some st2 =>
                match st2.effects.get? i with
                | none => .err .typeError
                | some e2 =>
                  .ok (setEffectIn vc.2 ref i
                    { e2 with result := vc.1, computed := true }))
          | none => .ok (setEffectIn char ref i { e with computed := true })

/-- evaluateCalculation from the source: a falsy (empty) string is
returned as is; otherwise every token is substituted left to right and
the resulting string is arithmetically evaluated, falling back to the
substituted string itself when evaluation fails. -/
def evaluateCalculation : Nat → List Char → CharState → Res (JsVal × CharState)
  | 0, _, _ => .out
  | fuel + 1, s, char =>
    if s = [] then .ok (.str s, char)
    else
      Res.bind (substSegs fuel (tokenize s) char) (fun sc =>
        match mathEval sc.1 with
        | some v => .ok (.num v, sc.2)
        | none => .ok (.str sc.1, sc.2))

/-- Replace each matched token by the replacement the callback returns
(coerced to a string), keeping literal characters; tokens are resolved
left to right against the evolving character state. -/
def substSegs : Nat → List Seg → CharState → Res (List Char × CharState)
  | 0, _, _ => .out
  | _ + 1, [], char => .ok ([], char)
  | fuel + 1, .lit c :: rest, char =>
    Res.bind (substSegs fuel rest char) (fun tc => .ok (c :: tc.1, tc.2))
  | fuel + 1, .tok t :: rest, char =>
    Res.bind (resolveToken fuel t char) (fun vc =>
      Res.bind (substSegs fuel rest vc.2) (fun tc =>
        .ok (vc.1.toChars ++ tc.1, tc.2)))

/-- The replace callback: lower-case the token, then try attributes,
the ability-modifier pattern, skills, damage multipliers, class levels,
the total level, and finally give the (lower-cased) token back. -/
def resolveToken : Nat → List Char → CharState → Res (JsVal × CharState)
  | 0, _, _ => .out
  | fuel + 1, t, char =>
    let sub := lowerChars t
    match alookup char.atts sub with
    | some a =>
      if a.computed then .ok (a.result, char)
      else
        Res.bind (computeStat fuel (.att, sub) char) (fun char2 =>
          match alookup char2.atts sub with
          | none => .err .typeError
          | some a2 => .ok (a2.result, char2))
    | none =>
      if modPattern sub then
        match alookup char.atts (stripMod sub) with
        | some b =>
          if b.computed then .ok (jsOrNaN b.mod, char)
          else
            -- the source calls computeStat(char.atts[sub], char) here with
            -- the unstripped token; char.atts[sub] is necessarily undefined
            -- at this point (the attribute branch above returned otherwise),
            -- so computeStat reads `computed` of undefined and throws
            .err .typeError
        | none => resolveTokenRest fuel sub char
      else resolveTokenRest fuel sub char

/-- The remaining cases of the replace callback, after the attribute and
ability-modifier checks have fallen through. -/
def resolveTokenRest : Nat → List Char → CharState → Res (JsVal × CharState)
  | 0, _, _ => .out
  | fuel + 1, sub, char =>
    match alookup char.skills sub with
    | some sk =>
      if sk.computed then .ok (sk.result, char)
      else
        Res.bind (computeStat fuel (.skill, sub) char) (fun char2 =>
          match alookup char2.skills sub with
          | none => .err .typeError
          | some sk2 => .ok (sk2.result, char2))
    | none =>
      match alookup char.dms sub with
      | some d =>
        if d.computed then .ok (d.result, char)
        else
          Res.bind (computeStat fuel (.dm, sub) char) (fun char2 =>
            match alookup char2.dms sub with
            | none => .err .typeError
            | some d2 => .ok (d2.result, char2))
      | none =>
        if levelPattern sub then
          match alookup char.classes (stripLevel sub) with
          | some lv => if lv.truthy then .ok (.num lv, char) else .ok (.str sub, char)
          | none => .ok (.str sub, char)
        else if sub = "level".data then .ok (.num char.level, char)
        else .ok (.str sub, char)

/-- combineStat from the source: dispatch on the stat's `type`. -/
def combineStat : Nat → StatRef → CharState → Res CharState
  | 0, _, _ => .out
  | fuel + 1, ref, char =>
    match getStat char ref with
    | none => .err .typeError
    | some st =>
      match st with
      | .att a => .ok (setStat char ref (.att (combineAttribute a)))
      | .skill _ => combineSkill fuel ref.2 char
      | .dm d => .ok (setStat char ref (.dm (combineDamageMultiplier d)))

/-- combineSkill from the source: fold the proficiencies, find the
proficiency bonus, scale it, add the ability modifier, combine, clamp
and floor. -/
def combineSkill : Nat → List Char → CharState → Res CharState
  | 0, _, _ => .out
  | fuel + 1, name, char =>
    match alookup char.skills name with
    | none => .err .typeError
    | some sk =>
      let prof := sk.proficiencies.foldl
        (fun p pr => if jsGtB pr.value p then pr.value else p) sk.proficiency
      let char1 := { char with skills := aset char.skills name { sk with proficiency := prof } }
      Res.bind (getProfBonus fuel char1) (fun bc =>
        match alookup bc.2.skills name with
        | none => .err .typeError
        | some sk2 =>
          let profBonus := jsMul bc.1 sk2.proficiency
          Res.bind (getAbilityMod fuel sk2.ability bc.2) (fun mc =>
            match alookup mc.2.skills name with
            | none => .err .typeError
            | some sk3 =>
              let r0 := jsMul (jsAdd (jsAdd mc.1 profBonus) sk3.add) sk3.mul
              let r1 := if jsLtB r0 sk3.min then sk3.min else r0
              let r2 := if jsGtB r1 sk3.max then sk3.max else r1
              let r3 := JsVal.num r2.toNumber.floor
              .ok { mc.2 with skills := aset mc.2.skills name { sk3 with result := r3 } }))

/-- The proficiency bonus of combineSkill.  The source tests the
misspelled key `proificiencyBonus` but then dereferences the correctly
spelled `proficiencyBonus`; when the test fails the default
`Math.floor(char.level / 4 + 1.75)` is used. -/
def getProfBonus : Nat → CharState → Res (JsVal × CharState)
  | 0, _ => .out
  | fuel + 1, char =>
    match alookup char.skills "proificiencyBonus".data with
    | some _ =>
      match alookup char.skills "proficiencyBonus".data with
      | none => .err .typeError
      | some pb =>
        if pb.computed then .ok (pb.result, char)
        else
          Res.bind (computeStat fuel (.skill, "proficiencyBonus".data) char) (fun char2 =>
            match alookup char2.skills "proficiencyBonus".data with
            | none => .err .typeError
            | some pb2 => .ok (pb2.result, char2))
    | none => .ok (.num (((char.level.div (.num 4)).add (.num (7 / 4))).floor), char)

/-- The ability modifier lookup of combineSkill: zero when the skill has
no (truthy) ability or the attribute is missing; otherwise the computed
attribute's `mod`. -/
def getAbilityMod : Nat → Option (List Char) → CharState → Res (JsVal × CharState)
  | 0, _, _ => .out
  | fuel + 1, ab, char =>
    match ab with
    | none => .ok (.num (.num 0), char)
    | some abn =>
      if abn = [] then .ok (.num (.num 0), char)
      else
        match alookup char.atts abn with
        | none => .ok (.num (.num 0), char)
        | some a =>
          if a.computed then .ok (a.mod, char)
          else
            Res.bind (computeStat fuel (.att, abn) char) (fun char2 =>
              match alookup char2.atts abn with
              | none => .err .typeError
              | some a2 => .ok (a2.mod, char2))

end

/-- One `for (statName in ...)` loop of computeCharacter: compute each
named stat in enumeration order. -/
def computeList (fuel : Nat) (k : StatK) : List (List Char) → CharState → Res CharState
  | [], char => .ok char
  | n :: rest, char => Res.bind (computeStat fuel (k, n) char) (computeList fuel k rest)

/-- computeCharacter from the source: iterate over every attribute, then
every skill, then every damage multiplier. -/
def computeCharacter (fuel : Nat) (char : CharState) : Res CharState :=
  Res.bind (computeList fuel .att (char.atts.map Prod.fst) char) (fun c1 =>
    Res.bind (computeList fuel .skill (c1.skills.map Prod.fst) c1) (fun c2 =>
      computeList fuel .dm (c2.dms.map Prod.fst) c2))

/-- A raw attribute document (the fields buildCharacter reads). -/
structure RawAttribute where
  variableName : List Char
  attributeType : Option (List Char)
  baseValue : Option JsNum
  decimal : Bool
deriving DecidableEq, Repr

/-- A raw skill document. -/
structure RawSkill where
  variableName : List Char
  ability : Option (List Char)
deriving DecidableEq, Repr

/-- A raw damage multiplier document. -/
structure RawDamageMultiplier where
  variableName : List Char
deriving DecidableEq, Repr

/-- A raw class document. -/
structure RawClass where
  name : List Char
  level : JsNum
deriving DecidableEq, Repr

/-- A raw effect document. -/
structure RawEffect where
  stat : List Char
  enabled : Bool
  operation : List Char
  value : Option JsNum
  calculation : Option (List Char)
deriving DecidableEq, Repr

/-- A raw proficiency document; `profType` is the document's `type`. -/
structure RawProficiency where
  name : List Char
  profType : List Char
  enabled : Bool
  level : JsNum
deriving DecidableEq, Repr

/-- The fresh attribute node buildCharacter creates
(`base: attribute.baseValue || 0`). -/
def freshAtt (r : RawAttribute) : AttRec :=
  { computed := false, busyComputing := false, attributeType := r.attributeType,
    base := .num (match r.baseValue with
      | some v => if v.truthy then v else .num 0
      | none => .num 0),
    decimal := r.decimal, result := .num (.num 0), mod := .num (.num 0),
    add := .num (.num 0), mul := .num (.num 1),
    min := .num .ninf, max := .num .inf, effects := [] }

/-- The fresh skill node buildCharacter creates. -/
def freshSkill (r : RawSkill) : SkillRec :=
  { computed := false, busyComputing := false, ability := r.ability,
    result := .num (.num 0), proficiency := .num (.num 0),
    add := .num (.num 0), mul := .num (.num 1),
    min := .num .ninf, max := .num .inf,
    advantage := .num (.num 0), disadvantage := .num (.num 0),
    passiveAdd := .num (.num 0), fail := .num (.num 0),
    conditional := .num (.num 0), effects := [], proficiencies := [] }

/-- The fresh damage multiplier node buildCharacter creates. -/
def freshDm : DmRec :=
  { computed := false, busyComputing := false, result := .num (.num 0),
    immunityCount := 0, ressistanceCount := 0, vulnerabilityCount := 0,
    effects := [] }

/-- Insert the attributes in document order, first occurrence wins. -/
def addAtts : List RawAttribute → List (List Char × AttRec) → List (List Char × AttRec)
  | [], acc => acc
  | r :: rest, acc =>
    if (alookup acc r.variableName).isSome then addAtts rest acc
    else addAtts rest (acc ++ [(r.variableName, freshAtt r)])

/-- Insert the skills in document order, first occurrence wins. -/
def addSkills : List RawSkill → List (List Char × SkillRec) → List (List Char × SkillRec)
  | [], acc => acc
  | r :: rest, acc =>
    if (alookup acc r.variableName).isSome then addSkills rest acc
    else addSkills rest (acc ++ [(r.variableName, freshSkill r)])

/-- Insert the damage multipliers in document order. -/
def addDms : List RawDamageMultiplier → List (List Char × DmRec) → List (List Char × DmRec)
  | [], acc => acc
  | r :: rest, acc =>
    if (alookup acc r.variableName).isSome then addDms rest acc
    else addDms rest (acc ++ [(r.variableName, freshDm)])

/-- Insert the classes and sum the total level. -/
def addClasses : List RawClass → List (List Char × JsNum) → JsNum →
    List (List Char × JsNum) × JsNum
  | [], acc, lvl => (acc, lvl)
  | r :: rest, acc, lvl =>
    if (alookup acc r.name).isSome then addClasses rest acc lvl
    else addClasses rest (acc ++ [(r.name, r.level)]) (lvl.add r.level)

/-- The stored effect object buildCharacter pushes onto its stat. -/
def storedEffect (e : RawEffect) : EffectRec :=
  { computed := false, result := .num (.num 0), operation := e.operation,
    value := e.value, calculation := e.calculation }

/-- Attach each enabled effect to the attribute, skill or damage
multiplier with its name; effects whose stat does not exist are dropped. -/
def attachEffects : List RawEffect → CharState → CharState
  | [], c => c
  | e :: rest, c =>
    if e.enabled then
      match alookup c.atts e.stat with
      | some a =>
        let a2 := { a with effects := a.effects ++ [storedEffect e] }
        attachEffects rest { c with atts := aset c.atts e.stat a2 }
      | none =>
        match alookup c.skills e.stat with
        | some s =>
          let s2 := { s with effects := s.effects ++ [storedEffect e] }
          attachEffects rest { c with skills := aset c.skills e.stat s2 }
        | none =>
          match alookup c.dms e.stat with
          | some d =>
            let d2 := { d with effects := d.effects ++ [storedEffect e] }
            attachEffects rest { c with dms := aset c.dms e.stat d2 }
          | none => attachEffects rest c
    else attachEffects rest c

/-- Attach the enabled skill and save proficiencies.  The source executes
`char.skills[proficiency.name].proficiencies.push(effect)`, but `effect`
is not an identifier in scope there in any JavaScript mode (it was the
parameter of an earlier callback), so the first proficiency that matches
an existing skill makes the build throw a ReferenceError. -/
def attachProficiencies : List RawProficiency → CharState → Res CharState
  | [], c => .ok c
  | p :: rest, c =>
    if p.enabled && (p.profType = "skill".data || p.profType = "save".data) then
      match alookup c.skills p.name with
      | some _ => .err .referenceError
      | none => attachProficiencies rest c
    else attachProficiencies rest c

/-- buildCharacter from the source: build the stat nodes, sum the class
levels, and attach the enabled effects and proficiencies. -/
def buildCharacter (atts : List RawAttribute) (skills : List RawSkill)
    (dms : List RawDamageMultiplier) (classes : List RawClass)
    (effects : List RawEffect) (profs : List RawProficiency) : Res CharState :=
  let cl := addClasses classes [] (.num 0)
  attachProficiencies profs (attachEffects effects
    { atts := addAtts atts [], skills := addSkills skills [],
      dms := addDms dms [], classes := cl.1, level := cl.2 })

/-- computeCharacterById from the source, without the database write-back:
build the in-memory character and compute it. -/
def computeCharacterById (fuel : Nat) (atts : List RawAttribute)
    (skills : List RawSkill) (dms : List RawDamageMultiplier)
    (classes : List RawClass) (effects : List RawEffect)
    (profs : List RawProficiency) : Res CharState :=
  Res.bind (buildCharacter atts skills dms classes effects profs) (computeCharacter fuel)

/-- Did the computation return normally? -/
def isOk {α : Type} : Res α → Bool
  | .ok _ => true
  | _ => false

/-- The final `result` of a named attribute, when the computation returned. -/
def attResultOf (r : Res CharState) (n : List Char) : Option JsVal :=
  match r with
  | .ok c => (alookup c.atts n).map AttRec.result
  | _ => none

/-- The final `result` of a named skill, when the computation returned. -/
def skillResultOf (r : Res CharState) (n : List Char) : Option JsVal :=
  match r with
  | .ok c => (alookup c.skills n).map SkillRec.result
  | _ => none

/-- The final `result` of a named damage multiplier, when the computation
returned. -/
def dmResultOf (r : Res CharState) (n : List Char) : Option JsVal :=
  match r with
  | .ok c => (alookup c.dms n).map DmRec.result
  | _ => none

/-- The `computed` flag of a named damage multiplier. -/
def dmComputedOf (r : Res CharState) (n : List Char) : Option Bool :=
  match r with
  | .ok c => (alookup c.dms n).map DmRec.computed
  | _ => none

/-! Concrete inputs used to settle the claims. -/

/-- An enabled `add` effect on the attribute `a` whose formula is `a`
itself: the smallest dependency cycle. -/
def cycEffect : EffectRec :=
  { computed := false, result := .num (.num 0), operation := "add".data,
    value := none, calculation := some ['a'] }

/-- The attribute `a` carrying the self-referencing effect. -/
def cycAtt : AttRec :=
  { computed := false, busyComputing := false, attributeType := none,
    base := .num (.num 0), decimal := false, result := .num (.num 0),
    mod := .num (.num 0), add := .num (.num 0), mul := .num (.num 1),
    min := .num .ninf, max := .num .inf, effects := [cycEffect] }

/-- A character with the single self-referencing attribute `a` (what
buildCharacter produces for that input). -/
def cycChar : CharState :=
  { atts := [(['a'], cycAtt)], skills := [], dms := [], classes := [], level := .num 0 }

/-- An attribute `a` whose `add` effect's formula is `bmod` (the ability
modifier of `b`). -/
def modAtt : AttRec :=
  { computed := false, busyComputing := false, attributeType := none,
    base := .num (.num 0), decimal := false, result := .num (.num 0),
    mod := .num (.num 0), add := .num (.num 0), mul := .num (.num 1),
    min := .num .ninf, max := .num .inf,
    effects := [{ computed := false, result := .num (.num 0),
                  operation := "add".data, value := none,
                  calculation := some "bmod".data }] }

/-- An ability attribute `b` with base value 12 and no effects. -/
def abilityAtt : AttRec :=
  { computed := false, busyComputing := false, attributeType := some "ability".data,
    base := .num (.num 12), decimal := false, result := .num (.num 0),
    mod := .num (.num 0), add := .num (.num 0), mul := .num (.num 1),
    min := .num .ninf, max := .num .inf, effects := [] }

/-- The two-attribute character enumerated `a` before `b`. -/
def charAB : CharState :=
  { atts := [("a".data, modAtt), ("b".data, abilityAtt)], skills := [], dms := [],
    classes := [], level := .num 0 }

/-- The same character enumerated `b` before `a`. -/
def charBA : CharState :=
  { atts := [("b".data, abilityAtt), ("a".data, modAtt)], skills := [], dms := [],
    classes := [], level := .num 0 }

/-- Raw attribute `a` (no base value). -/
def c3attA : RawAttribute :=
  { variableName := "a".data, attributeType := none, baseValue := none, decimal := false }

/-- Raw ability attribute `b` with base value 12. -/
def c3attB : RawAttribute :=
  { variableName := "b".data, attributeType := some "ability".data,
    baseValue := some (.num 12), decimal := false }

/-- Raw enabled effect adding the formula `bmod` to `a`. -/
def c3eff : RawEffect :=
  { stat := "a".data, enabled := true, operation := "add".data, value := none,
    calculation := some "bmod".data }

/-- A `proficiencyBonus` skill whose single effect adds the literal 4. -/
def c5pb : SkillRec :=
  { computed := false, busyComputing := false, ability := none,
    result := .num (.num 0), proficiency := .num (.num 0),
    add := .num (.num 0), mul := .num (.num 1), min := .num .ninf, max := .num .inf,
    advantage := .num (.num 0), disadvantage := .num (.num 0),
    passiveAdd := .num (.num 0), fail := .num (.num 0), conditional := .num (.num 0),
    effects := [{ computed := false, result := .num (.num 0), operation := "add".data,
                  value := some (.num 4), calculation := none }],
    proficiencies := [] }

/-- A skill with proficiency level 1 and no effects. -/
def c5ath : SkillRec :=
  { c5pb with effects := [], proficiencies := [{ value := .num (.num 1) }] }

/-- A level-0 character defining a `proficiencyBonus` skill (worth 4) and
a proficient `athletics` skill. -/
def c5char : CharState :=
  { atts := [], skills := [("proficiencyBonus".data, c5pb), ("athletics".data, c5ath)],
    dms := [], classes := [], level := .num 0 }

/-- A character holding a single damage multiplier. -/
def dmOnlyChar (nm : List Char) (d : DmRec) : CharState :=
  { atts := [], skills := [], dms := [(nm, d)], classes := [], level := .num 0 }

/-- A damage multiplier with an immunity and a resistance recorded. -/
def dmImmune : DmRec :=
  { computed := false, busyComputing := false, result := .num (.num 0),
    immunityCount := 1, ressistanceCount := 1, vulnerabilityCount := 0, effects := [] }

/-- A raw skill document `athletics`. -/
def c7skill : RawSkill := { variableName := "athletics".data, ability := none }

/-- A raw enabled skill proficiency on `athletics` with level 1. -/
def c7prof : RawProficiency :=
  { name := "athletics".data, profType := "skill".data, enabled := true, level := .num 1 }

/-- A computed `strength` attribute with modifier 3. -/
def strengthAtt : AttRec :=
  { computed := true, busyComputing := false, attributeType := some "ability".data,
    base := .num (.num 16), decimal := false, result := .num (.num 16),
    mod := .num (.num 3), add := .num (.num 0), mul := .num (.num 1),
    min := .num .ninf, max := .num .inf, effects := [] }

/-- A character whose `strength` is already computed. -/
def charStrength : CharState :=
  { atts := [("strength".data, strengthAtt)], skills := [], dms := [],
    classes := [], level := .num 0 }

/-- A character with only the uncomputed ability `b`. -/
def charC8 : CharState :=
  { atts := [("b".data, abilityAtt)], skills := [], dms := [], classes := [],
    level := .num 0 }

/-- A character with only the uncomputed ability `a`. -/
def charC9 : CharState :=
  { atts := [("a".data, abilityAtt)], skills := [], dms := [], classes := [],
    level := .num 0 }

/-- A character with no stats at all. -/
def emptyChar : CharState :=
  { atts := [], skills := [], dms := [], classes := [], level := .num 0 }

/-- The claim's clamp, reading the spec's `[min, max]` with the engine's
infinite defaults allowed on either side. -/
def specClamp (r : ℚ) (lo hi : JsNum) : ℚ :=
  let r1 := match lo with
    | .num l => Max.max l r
    | _ => r
  match hi with
  | .num h => Min.min h r1
  | _ => r1

/-- The claim's attribute result: `(base + add) × mul`, clamped, floored
unless the attribute is decimal. -/
def specAttrResult (b x m : ℚ) (lo hi : JsNum) (dec : Bool) : ℚ :=
  if dec then specClamp ((b + x) * m) lo hi
  else ((⌊specClamp ((b + x) * m) lo hi⌋ : ℤ) : ℚ)

/-- The example attribute of the claim: base 10, add 2, mul 1.5, no
clamps, not decimal, an ability. -/
def exAtt : AttRec :=
  { computed := false, busyComputing := false, attributeType := some "ability".data,
    base := .num (.num 10), decimal := false, result := .num (.num 0),
    mod := .num (.num 0), add := .num (.num 2), mul := .num (.num (3 / 2)),
    min := .num .ninf, max := .num .inf, effects := [] }

/-! Unfolding lemmas for one round of the self-referencing computation of
`cycChar`: computeStat re-enters itself on the same, unchanged state
(nothing is written before the recursive call, and `busyComputing` is
never set), six fuel steps deeper. -/

theorem cycL1 (k : Nat) : resolveToken (k + 1) ['a'] cycChar =
    Res.bind (computeStat k (StatK.att, ['a']) cycChar) (fun char2 =>
      match alookup char2.atts ['a'] with
      | none => Res.err .typeError
      | some a2 => Res.ok (a2.result, char2)) := by
  have hb6 : lowerChars ['a'] = ['a'] := by decide
  have hb7 : alookup cycChar.atts ['a'] = some cycAtt := by decide
  have hc1 : cycAtt.computed = false := rfl
  simp only [resolveToken, hb6, hb7, hc1, Bool.false_eq_true, if_false]

theorem cycL2 (k : Nat) : substSegs (k + 1) [Seg.tok ['a']] cycChar =
    Res.bind (resolveToken k ['a'] cycChar) (fun vc =>
      Res.bind (substSegs k [] vc.2) (fun tc => Res.ok (vc.1.toChars ++ tc.1, tc.2))) := by
  simp only [substSegs]

theorem cycL3 (k : Nat) : evaluateCalculation (k + 1) ['a'] cycChar =
    Res.bind (substSegs k [Seg.tok ['a']] cycChar) (fun sc =>
      match mathEval sc.1 with
      | some v => Res.ok (.num v, sc.2)
      | none => Res.ok (.str sc.1, sc.2)) := by
  have hb5 : tokenize ['a'] = [Seg.tok ['a']] := by decide
  simp only [evaluateCalculation, hb5, List.cons_ne_nil, if_false]

theorem cycL4 (k : Nat) : computeEffect (k + 1) (StatK.att, ['a']) 0 cycChar =
    Res.bind (evaluateCalculation k ['a'] cycChar) (fun vc =>
      match getStat vc.2 (StatK.att, ['a']) with
      | none => Res.err .typeError
      | some st2 =>
        match st2.effects.get? 0 with
        | none => Res.err .typeError
        | some e2 => Res.ok (setEffectIn vc.2 (StatK.att, ['a']) 0
            { e2 with result := vc.1, computed := true })) := by
  have hb4 : getStat cycChar (StatK.att, ['a']) = some (Stat.att cycAtt) := by decide
  have he1 : (Stat.att cycAtt).effects.get? 0 = some cycEffect := by decide
  have he2 : cycEffect.computed = false := rfl
  have he3 : effValueFinite cycEffect = false := by decide
  have he4 : (cycEffect.operation = "conditional".data) = False := by
    simp [cycEffect, String.data]
  have he5 : isAdvLike cycEffect.operation = false := by decide
  have he6 : cycEffect.calculation = some ['a'] := rfl
  simp only [computeEffect, hb4, he1, he2, he3, he4, he5, he6, Bool.false_eq_true, if_false]

theorem cycL5 (k : Nat) : computeEffectsLoop (k + 1) (StatK.att, ['a']) 0 cycChar =
    Res.bind (computeEffect k (StatK.att, ['a']) 0 cycChar) (fun char2 =>
      match getStat char2 (StatK.att, ['a']) with
      | none => Res.err .typeError
      | some st2 =>
        match st2.effects.get? 0 with
        | none => Res.err .typeError
        | some e =>
          computeEffectsLoop k (StatK.att, ['a']) 1
            (setStat char2 (StatK.att, ['a']) (applyEffect e st2))) := by
  have hb4 : getStat cycChar (StatK.att, ['a']) = some (Stat.att cycAtt) := by decide
  have hl1 : (Stat.att cycAtt).effects.length = 1 := by decide
  simp only [computeEffectsLoop, hb4, hl1, Nat.zero_lt_one, if_true]

theorem cycL6 (k : Nat) : computeStat (k + 1) (StatK.att, ['a']) cycChar =
    Res.bind (computeEffectsLoop k (StatK.att, ['a']) 0 cycChar) (fun char2 =>
      Res.bind (combineStat k (StatK.att, ['a']) char2) (fun char3 =>
        match getStat char3 (StatK.att, ['a']) with
        | none => Res.err .typeError
        | some st3 => Res.ok (setStat char3 (StatK.att, ['a']) st3.markComputed))) := by
  have hb4 : getStat cycChar (StatK.att, ['a']) = some (Stat.att cycAtt) := by decide
  have hc1 : (Stat.att cycAtt).computed = false := by decide
  have hc2 : (Stat.att cycAtt).busyComputing = false := by decide
  simp only [computeStat, hb4, hc1, hc2, Bool.false_eq_true, if_false]

/-- Six more units of fuel bring the self-referencing computation back to
itself: exhaustion propagates. -/
theorem cyc_step (m : Nat) (h : computeStat m (StatK.att, ['a']) cycChar = .out) :
    computeStat (m + 6) (StatK.att, ['a']) cycChar = .out := by
  rw [show m + 6 = m + 5 + 1 from rfl, cycL6 (m + 5),
      show m + 5 = m + 4 + 1 from rfl, cycL5 (m + 4),
      show m + 4 = m + 3 + 1 from rfl, cycL4 (m + 3),
      show m + 3 = m + 2 + 1 from rfl, cycL3 (m + 2),
      show m + 2 = m + 1 + 1 from rfl, cycL2 (m + 1),
      cycL1 m, h]
  rfl

/-- The self-referencing stat exhausts every amount of fuel: the source's
computeStat never terminates on it. -/
theorem computeStat_cyc : ∀ n, computeStat n (StatK.att, ['a']) cycChar = .out := by
  intro n
  induction n using Nat.strong_induction_on with
  | _ n ih =>
    match n with
    | 0 => decide
    | 1 => decide
    | 2 => decide
    | 3 => decide
    | 4 => decide
    | 5 => decide
    | m + 6 => exact cyc_step m (ih m (by omega))

/-- C1: the claim says a recompute of a character with a dependency cycle
still terminates with `result = NaN` on the cycle.  In the source,
`busyComputing` is never set to `true`, so the cycle-detection branch is
dead and the recursion never returns: on the one-attribute character
whose formula references itself, computeCharacter exhausts every finite
amount of fuel (the JavaScript call recurses without bound).  This
contradicts the claim (and the source's own descriptive comment), so the
claim is recorded as a code bug, witnessed by this divergence theorem. -/
theorem claim_C1 : ∀ fuel, computeCharacter fuel cycChar = Res.out := by
  intro fuel
  have h1 : cycChar.atts.map Prod.fst = [['a']] := by decide
  simp only [computeCharacter, computeList, h1, computeStat_cyc fuel, Res.bind]

attribute [local semireducible] Rat.add Rat.mul Rat.sub Rat.inv

set_option maxHeartbeats 4000000 in
/-- C2: the claim says the final results are independent of the
enumeration order of the stat maps.  `charBA` enumerates the same two
attributes as `charAB` in the opposite order; computing `a` first hits
the evaluator's broken ability-modifier recursion
(`computeStat(char.atts[sub])` with the unstripped token) and throws a
TypeError, while computing `b` first completes with results 1 and 12.
Order changes the outcome, refuting the claim; recorded as a code bug. -/
theorem claim_C2 :
    charBA.atts = charAB.atts.reverse ∧
    charBA.skills = charAB.skills ∧ charBA.dms = charAB.dms ∧
    charBA.classes = charAB.classes ∧ charBA.level = charAB.level ∧
    computeCharacter 50 charAB = .err .typeError ∧
    isOk (computeCharacter 50 charBA) = true ∧
    attResultOf (computeCharacter 50 charBA) ("a".data) = some (.num (.num 1)) ∧
    attResultOf (computeCharacter 50 charBA) ("b".data) = some (.num (.num 12)) := by
  decide

set_option maxHeartbeats 1000000 in
/-- C3: the claim says the recompute pass never raises an exception.  On
a two-attribute character whose first attribute's formula references the
second attribute's modifier before it is computed, the full pass (build,
then compute) throws a TypeError through the evaluator's
`computeStat(char.atts[sub])` slip; recorded as a code bug. -/
theorem claim_C3 :
    computeCharacterById 50 [c3attA, c3attB] [] [] [] [c3eff] [] = .err .typeError := by
  decide

/-- Raising a value to the minimum is taking a maximum. -/
theorem max_ite (r lo : ℚ) : (if r < lo then lo else r) = Max.max lo r := by
  rcases lt_or_le r lo with h | h
  · rw [if_pos h, max_eq_left h.le]
  · rw [if_neg (not_lt.mpr h), max_eq_right h]

/-- Lowering a value to the maximum is taking a minimum. -/
theorem min_ite (r hi : ℚ) : (if hi < r then hi else r) = Min.min hi r := by
  rcases lt_or_le hi r with h | h
  · rw [if_pos h, min_eq_left h.le]
  · rw [if_neg (not_lt.mpr h), min_eq_right h]

set_option maxHeartbeats 2000000 in
/-- C4: for finite accumulators (with the default infinite bounds allowed
on either side), combineAttribute computes `(base + add) × mul`, clamps
it to `[min, max]`, floors it unless the attribute is decimal, and for
ability-typed attributes derives `modifier = floor((result − 10) / 2)` —
exactly the claim's formula, stated through the spec-side
`specAttrResult`. -/
theorem claim_C4 (a : AttRec) (b x m : ℚ) (lo hi : JsNum)
    (hb : a.base = .num (.num b)) (hx : a.add = .num (.num x)) (hm : a.mul = .num (.num m))
    (hlo : a.min = .num lo) (hhi : a.max = .num hi)
    (hlo2 : lo = .ninf ∨ ∃ q, lo = .num q) (hhi2 : hi = .inf ∨ ∃ q, hi = .num q) :
    (combineAttribute a).result = .num (.num (specAttrResult b x m lo hi a.decimal)) ∧
    (a.attributeType = some ("ability".data) →
      (combineAttribute a).mod =
        .num (.num ((⌊(specAttrResult b x m lo hi a.decimal - 10) / 2⌋ : ℤ) : ℚ))) := by
  rcases hlo2 with rfl | ⟨ql, rfl⟩ <;> rcases hhi2 with rfl | ⟨qh, rfl⟩ <;>
    simp only [combineAttribute, hb, hx, hm, hlo, hhi, jsAdd, jsMul, jsLtB, jsGtB,
      JsVal.toNumber, JsNum.add, JsNum.mul, JsNum.lt, JsNum.sub, JsNum.neg, JsNum.div,
      JsNum.floor, specAttrResult, specClamp, Bool.false_eq_true, if_false,
      decide_eq_true_eq, max_ite, min_ite] <;>
    split_ifs <;>
    simp_all [JsVal.toNumber, JsNum.add, JsNum.div, JsNum.floor, sub_eq_add_neg] <;>
    (try refine ⟨?_, ?_⟩) <;> (try simp_all [min_def, max_def]) <;> (try split_ifs) <;>
    first
    | rfl
    | linarith
    | (left; linarith)
    | (have hee : ql = qh := by linarith
       rw [hee])

/-- Witness for C4 at the claim's own example: base 10, add 2, mul 1.5,
no clamps, not decimal, ability-typed, giving result 18 and modifier 4. -/
theorem claim_C4_witness :
    (combineAttribute exAtt).result = .num (.num 18) ∧
    (combineAttribute exAtt).mod = .num (.num 4) := by
  have h := claim_C4 exAtt 10 2 (3 / 2) .ninf .inf rfl rfl rfl rfl rfl
    (Or.inl rfl) (Or.inl rfl)
  refine ⟨?_, ?_⟩
  · rw [h.1]; decide
  · rw [h.2 rfl]; decide

set_option maxHeartbeats 4000000 in
/-- C5: the claim says a defined `proficiencyBonus` skill is computed
first and its result used as the proficiency bonus.  The source instead
tests the misspelled key `proificiencyBonus`, so the defined
`proficiencyBonus` skill (worth 4 here) is ignored and the default
`floor(0/4 + 1.75) = 1` is used: the proficient `athletics` skill ends
at 1 where the claim requires 4.  Recorded as a code bug (the check and
the dereference in the source disagree on the key's spelling). -/
theorem claim_C5 :
    skillResultOf (computeCharacter 50 c5char) ("proficiencyBonus".data) =
      some (.num (.num 4)) ∧
    skillResultOf (computeCharacter 50 c5char) ("athletics".data) =
      some (.num (.num 1)) := by
  decide

/-- Preliminary for C6: computing a damage multiplier with no effects
combines it and marks it computed, leaving everything else as
combineDamageMultiplier decides. -/
theorem dm_compute (d : DmRec) (nm : List Char) (m : Nat)
    (h1 : d.computed = false) (h2 : d.busyComputing = false) (h3 : d.effects = []) :
    computeStat (m + 2) (StatK.dm, nm) (dmOnlyChar nm d) =
      .ok (dmOnlyChar nm
        { combineDamageMultiplier d with computed := true, busyComputing := false }) := by
  simp only [computeStat, computeEffectsLoop, combineStat, dmOnlyChar, getStat, alookup,
    aset, setStat, Stat.computed, Stat.busyComputing, Stat.effects, Stat.markComputed,
    Res.bind, h1, h2, h3, if_pos, if_true, if_false, Option.map, List.length_nil,
    Nat.lt_irrefl, Bool.false_eq_true, eq_self_iff_true, Nat.zero_add]

/-- C6: a computed damage multiplier's result follows the claim's table —
0 when the immunity count is nonzero (the source's `return 0` leaves the
initial result 0 in place), 0.5 for resistance only, 2 for vulnerability
only, and 1 when the counts cancel or are absent. -/
theorem claim_C6 (d : DmRec) (nm : List Char) (m : Nat)
    (h1 : d.computed = false) (h2 : d.busyComputing = false)
    (h3 : d.effects = []) (h4 : d.result = .num (.num 0)) :
    (d.immunityCount ≠ 0 →
      dmResultOf (computeStat (m + 2) (StatK.dm, nm) (dmOnlyChar nm d)) nm =
        some (.num (.num 0))) ∧
    (d.immunityCount = 0 → d.ressistanceCount ≠ 0 → d.vulnerabilityCount = 0 →
      dmResultOf (computeStat (m + 2) (StatK.dm, nm) (dmOnlyChar nm d)) nm =
        some (.num (.num (1 / 2)))) ∧
    (d.immunityCount = 0 → d.ressistanceCount = 0 → d.vulnerabilityCount ≠ 0 →
      dmResultOf (computeStat (m + 2) (StatK.dm, nm) (dmOnlyChar nm d)) nm =
        some (.num (.num 2))) ∧
    (d.immunityCount = 0 →
      (d.ressistanceCount ≠ 0 ∧ d.vulnerabilityCount ≠ 0) ∨
        (d.ressistanceCount = 0 ∧ d.vulnerabilityCount = 0) →
      dmResultOf (computeStat (m + 2) (StatK.dm, nm) (dmOnlyChar nm d)) nm =
        some (.num (.num 1))) := by
  rw [dm_compute d nm m h1 h2 h3]
  refine ⟨fun hi => ?_, fun hi hr hv => ?_, fun hi hr hv => ?_, fun hi hrv => ?_⟩
  · simp only [dmResultOf, dmOnlyChar, alookup, eq_self_iff_true, if_true, Option.map,
      combineDamageMultiplier]
    rw [if_pos hi, h4]
  · simp only [dmResultOf, dmOnlyChar, alookup, eq_self_iff_true, if_true, Option.map,
      combineDamageMultiplier]
    rw [if_neg (fun h => h hi), if_pos (And.intro hr hv)]
  · simp only [dmResultOf, dmOnlyChar, alookup, eq_self_iff_true, if_true, Option.map,
      combineDamageMultiplier]
    rw [if_neg (fun h => h hi), if_neg (fun h => h.1 hr), if_pos (And.intro hr hv)]
  · rcases hrv with ⟨hr, hv⟩ | ⟨hr, hv⟩ <;>
      simp only [dmResultOf, dmOnlyChar, alookup, eq_self_iff_true, if_true, Option.map,
        combineDamageMultiplier]
    · rw [if_neg (fun h => h hi), if_neg (fun h => hv h.2), if_neg (fun h => hr h.1)]
    · rw [if_neg (fun h => h hi), if_neg (fun h => h.1 hr), if_neg (fun h => h.2 hv)]

/-- Witness for C6: an immunity recorded together with a resistance
leaves the computed result 0 (immunity dominates). -/
theorem claim_C6_witness :
    dmImmune.immunityCount ≠ 0 ∧
    dmResultOf (computeStat 2 (StatK.dm, ['x']) (dmOnlyChar ['x'] dmImmune)) ['x'] =
      some (.num (.num 0)) :=
  ⟨by decide, (claim_C6 dmImmune ['x'] 0 rfl rfl rfl rfl).1 (by decide)⟩

/-- C7: the claim says a skill's proficiency level is the maximum level
of its matching enabled proficiencies.  The source's attachment loop
pushes the identifier `effect`, which is not in scope there (reading an
undeclared identifier throws in every JavaScript mode), so the first
proficiency matching an existing skill aborts buildCharacter with a
ReferenceError instead of attaching anything; recorded as a code bug.
(Even if the push were fixed, combineSkill reads `prof.value`, not the
proficiency's `level`.) -/
theorem claim_C7 : buildCharacter [] [c7skill] [] [] [] [c7prof] = .err .referenceError := by
  decide

set_option maxHeartbeats 4000000 in
/-- C8: the claim says a token with the `mod` suffix makes the evaluator
compute the base attribute, recursing if it is uncomputed.  On an
already-computed attribute the substitution works (`strengthMod + 2`
with modifier 3 gives 5), but when the base attribute is uncomputed the
source recurses on `char.atts[sub]` — the unstripped token, which is
undefined — and throws a TypeError instead of computing `b`; recorded as
a code bug. -/
theorem claim_C8 :
    evaluateCalculation 50 ("strengthMod + 2".data) charStrength =
      .ok (.num (.num 5), charStrength) ∧
    evaluateCalculation 50 ("bmod".data) charC8 = .err .typeError := by
  decide

set_option maxHeartbeats 4000000 in
/-- C9: the claim says evaluateCalculation never throws, returning the
substituted string on arithmetic failure and a number on success.  Both
return paths behave as claimed (`foo + 1` falls back to the text,
`2 + 3` evaluates to 5), but a formula whose modifier token names an
uncomputed attribute throws a TypeError through the same
`computeStat(char.atts[sub])` slip, refuting "never throws"; recorded as
a code bug. -/
theorem claim_C9 :
    evaluateCalculation 50 ("foo + 1".data) emptyChar =
      .ok (.str ("foo + 1".data), emptyChar) ∧
    evaluateCalculation 50 ("2 + 3".data) emptyChar = .ok (.num (.num 5), emptyChar) ∧
    evaluateCalculation 50 ("1 + amod".data) charC9 = .err .typeError := by
  decide

/-- Whatever shrinkMatch keeps of the greedy run was part of it. -/
theorem shrinkMatch_subset : ∀ (l r m r2 : List Char),
    shrinkMatch l r = some (m, r2) → ∀ x ∈ m, x ∈ l := by
  intro l
  induction l with
  | nil => intro r m r2 h; simp [shrinkMatch] at h
  | cons p ps ih =>
    intro r m r2 h x hx
    rw [shrinkMatch] at h
    by_cases hb : (isWordChar p != isWordOpt r.head?) = true
    · rw [if_pos hb] at h
      cases h
      exact List.mem_reverse.mp hx
    · rw [if_neg hb] at h
      exact List.mem_cons_of_mem p (ih (p :: r) m r2 h x hx)

/-- Every character of every matched token lies in the regular
expression's class `[a-z,1-9]` (case-insensitive). -/
theorem tokenizeAux_tok_class : ∀ (fuel : Nat) (prev : Option Char) (s t : List Char),
    Seg.tok t ∈ tokenizeAux fuel prev s → ∀ c ∈ t, inTokenClass c = true := by
  intro fuel
  induction fuel with
  | zero =>
    intro prev s t h
    rw [tokenizeAux] at h
    obtain ⟨a, _, ha⟩ := List.mem_map.mp h
    exact absurd ha (by simp)
  | succ f ih =>
    intro prev s t h c hc
    match s with
    | [] => rw [tokenizeAux] at h; exact absurd h (List.not_mem_nil _)
    | x :: rest =>
      rw [tokenizeAux] at h
      by_cases hb : (inTokenClass x && (isWordOpt prev != isWordChar x)) = true
      · rw [if_pos hb] at h
        rcases hm : shrinkMatch (x :: rest.takeWhile inTokenClass).reverse
            (rest.dropWhile inTokenClass) with _ | ⟨mm, rest2⟩
        · simp only [hm] at h
          rcases List.mem_cons.mp h with h1 | h1
          · exact absurd h1 (by simp)
          · exact ih (some x) rest t h1 c hc
        · simp only [hm] at h
          rcases List.mem_cons.mp h with h1 | h1
          · have ht : t = mm := by injection h1
            subst ht
            have hx := shrinkMatch_subset _ _ _ _ hm c hc
            have hx2 := List.mem_reverse.mp hx
            rcases List.mem_cons.mp hx2 with h2 | h2
            · subst h2; exact (Bool.and_eq_true ..).mp hb |>.1
            · exact List.mem_takeWhile_imp h2
          · exact ih (some ((mm.getLastD x))) rest2 t h1 c hc
      · rw [if_neg hb] at h
        rcases List.mem_cons.mp h with h1 | h1
        · exact absurd h1 (by simp)
        · exact ih (some x) rest t h1 c hc

/-- `Char.ofNat` round-trips on lower-case letter codes. -/
theorem charToNat_ofNat_lower (n : Nat) (h1 : 97 ≤ n) (h2 : n ≤ 122) :
    (Char.ofNat n).toNat = n := by
  unfold Char.ofNat
  rw [dif_pos (Or.inl (by omega : n < 55296))]
  simp [Char.ofNatAux, Char.toNat, UInt32.toNat]

/-- Lower-casing a token-class character lands in the lower-cased class,
which contains neither `0` nor any upper-case letter. -/
theorem asciiLower_class (c : Char) (h : inTokenClass c = true) :
    inLowerTokenClass (asciiLower c) = true := by
  have h' := h
  simp only [inTokenClass, Bool.or_eq_true, Bool.and_eq_true, decide_eq_true_eq] at h'
  by_cases hc : (65 ≤ c.toNat && c.toNat ≤ 90) = true
  · have hc' := (Bool.and_eq_true ..).mp hc
    simp only [decide_eq_true_eq] at hc'
    rw [asciiLower, if_pos hc]
    have ht : (Char.ofNat (c.toNat + 32)).toNat = c.toNat + 32 :=
      charToNat_ofNat_lower _ (by omega) (by omega)
    simp only [inLowerTokenClass, Bool.or_eq_true, Bool.and_eq_true, decide_eq_true_eq, ht]
    omega
  · rw [asciiLower, if_neg hc]
    simp only [Bool.and_eq_true, decide_eq_true_eq, not_and, not_le] at hc
    simp only [inLowerTokenClass, Bool.or_eq_true, Bool.and_eq_true, decide_eq_true_eq]
    omega

/-- C10: only runs of the characters a–z, A–Z, comma and 1–9 become
tokens; the evaluator's lookup key is the lower-cased token, whose
characters all lie in the lower-cased class; consequently the key can
never equal a variable name containing a character outside that class —
in particular any name with an upper-case letter (codes 65–90) or the
digit 0 (code 48) — so such a stat is never substituted. -/
theorem claim_C10 (s t : List Char) (h : Seg.tok t ∈ tokenize s) :
    (∀ c ∈ t, inTokenClass c = true) ∧
    (∀ c ∈ lowerChars t, inLowerTokenClass c = true) ∧
    (∀ v : List Char, (∃ b ∈ v, inLowerTokenClass b = false) → lowerChars t ≠ v) := by
  have h1 : ∀ c ∈ t, inTokenClass c = true := tokenizeAux_tok_class _ none s t h
  have h2 : ∀ c ∈ lowerChars t, inLowerTokenClass c = true := by
    intro c hc
    obtain ⟨a, ha, rfl⟩ := List.mem_map.mp hc
    exact asciiLower_class a (h1 a ha)
  refine ⟨h1, h2, ?_⟩
  rintro v ⟨b, hbv, hbf⟩ he
  exact absurd (h2 b (he ▸ hbv)) (by simp [hbf])

/-- Witness for C10: the formula `dex` yields the token `dex`, and its
lookup key cannot be the stat name `D0x` (upper-case letter and digit
zero). -/
theorem claim_C10_witness :
    (Seg.tok ['d', 'e', 'x'] ∈ tokenize ("dex".data)) ∧
    lowerChars ['d', 'e', 'x'] ≠ "D0x".data := by
  have hmem : Seg.tok ['d', 'e', 'x'] ∈ tokenize ("dex".data) := by decide
  exact ⟨hmem, (claim_C10 _ _ hmem).2.2 ("D0x".data) ⟨'D', by decide, by decide⟩⟩

end DiceCloud
